import Mathlib

/-!
Verification of the book-search client library: a shallow embedding of
src/BookSearchApiClient.js (object-oriented client) and
src/BookSearchApiClientFunctional.js (standalone functional client),
together with proofs about the parse/normalise pipeline.

JavaScript runtime values are modelled by the inductive type JSValue;
numbers are modelled by JSNum (rationals extended with NaN and the two
infinities, which is exact for every value the code manipulates).
Thrown-and-rejected failures are modelled by JSError, keeping the kind
of the error object (Error, TypeError, ReferenceError) and its message.
-/

namespace BookSearch

/-- Model of a JavaScript number: a rational, NaN, or an infinity. -/
inductive JSNum where
  | nan : JSNum
  | inf : JSNum
  | neginf : JSNum
  | rat : ℚ → JSNum
deriving DecidableEq, Repr

/-- Model of a JavaScript runtime value, as far as the pipeline needs it:
undefined, null, booleans, strings, numbers, arrays and plain objects
(fields in insertion order). -/
inductive JSValue where
  | undef : JSValue
  | null : JSValue
  | bool : Bool → JSValue
  | str : String → JSValue
  | num : JSNum → JSValue
  | arr : List JSValue → JSValue
  | obj : List (String × JSValue) → JSValue
deriving Repr

/-- Model of a thrown JavaScript error: its constructor kind and message. -/
inductive JSError where
  | error : String → JSError
  | typeError : String → JSError
  | referenceError : String → JSError
deriving DecidableEq, Repr

/-- Outcome of an async call: resolves with a value or rejects with an error. -/
abbrev JSResult := Except JSError JSValue

/-- Property read item.key on a JS object modelled as a field list:
the value of the first binding of the key, undefined when absent. -/
def getField (fields : List (String × JSValue)) (key : String) : JSValue :=
  match fields.lookup key with
  | some v => v
  | none => JSValue.undef

/-- Write obj.key = v on a JS object modelled as a field list: an existing
binding is overwritten in place, a new key is appended at the end. -/
def insertField (fs : List (String × JSValue)) (k : String) (v : JSValue) :
    List (String × JSValue) :=
  match fs with
  | [] => [(k, v)]
  | (k0, v0) :: t => if k0 = k then (k0, v) :: t else (k0, v0) :: insertField t k v

/-! Models of the JavaScript builtins Number() and parseFloat() on strings.
These follow the ECMAScript StringNumericLiteral / parseFloat grammars for
the decimal fragment: optional sign, Infinity, decimal digits with optional
fraction and exponent. Hexadecimal, octal and binary literals are not
modelled (nothing in the repository produces them). -/

/-- Whitespace stripped by the JS string-to-number conversions. -/
def isJsWhitespace (c : Char) : Bool :=
  c == ' ' || c == '\t' || c == '\n' || c == '\r'

/-- Decimal digit test. -/
def isDigitCh (c : Char) : Bool := '0' ≤ c && c ≤ '9'

/-- Numeric value of a list of decimal digits. -/
def natOfDigits (ds : List Char) : Nat :=
  ds.foldl (fun n c => 10 * n + (c.toNat - '0'.toNat)) 0

/-- Parse an unsigned decimal mantissa prefix: digits with an optional dot and
fraction digits, or a dot followed by at least one digit. Returns the combined
mantissa digits value, the number of fraction digits, and the unconsumed rest;
none when no such prefix is present. The denoted value is m / 10 ^ k. -/
def parseUnsignedDecimal (cs : List Char) : Option (Nat × Nat × List Char) :=
  let intDigits := cs.takeWhile isDigitCh
  let rest1 := cs.dropWhile isDigitCh
  match intDigits, rest1 with
  | [], '.' :: cs2 =>
      let fracDigits := cs2.takeWhile isDigitCh
      if fracDigits.isEmpty then none
      else some (natOfDigits fracDigits, fracDigits.length, cs2.dropWhile isDigitCh)
  | [], _ => none
  | ds, '.' :: cs2 =>
      let fracDigits := cs2.takeWhile isDigitCh
      some (natOfDigits (ds ++ fracDigits), fracDigits.length, cs2.dropWhile isDigitCh)
  | ds, rest => some (natOfDigits ds, 0, rest)

/-- Read an optional exponent suffix e[+-]digits, returning the signed exponent
and the unconsumed rest; when the character e is not followed by at least one
digit nothing is consumed and the exponent is 0. -/
def parseExponentSuffix (cs : List Char) : Int × List Char :=
  match cs with
  | c :: cs2 =>
      if c == 'e' || c == 'E' then
        match cs2 with
        | '-' :: cs3 =>
            let ds := cs3.takeWhile isDigitCh
            if ds.isEmpty then (0, cs)
            else (-(natOfDigits ds : Int), cs3.dropWhile isDigitCh)
        | '+' :: cs3 =>
            let ds := cs3.takeWhile isDigitCh
            if ds.isEmpty then (0, cs)
            else ((natOfDigits ds : Int), cs3.dropWhile isDigitCh)
        | cs3 =>
            let ds := cs3.takeWhile isDigitCh
            if ds.isEmpty then (0, cs)
            else ((natOfDigits ds : Int), cs3.dropWhile isDigitCh)
      else (0, cs)
  | [] => (0, cs)

/-- Rational value of a decimal literal: sign, mantissa digits value m,
fraction length k and exponent z denote sign * m * 10 ^ z / 10 ^ k. -/
def decimalValue (neg : Bool) (m : Nat) (k : Nat) (z : Int) : ℚ :=
  Rat.divInt
    ((if neg then -1 else 1) * (m * 10 ^ z.toNat : Nat))
    ((10 ^ (k + (-z).toNat) : Nat))

/-- Parse a signed numeric prefix: optional sign, then Infinity or a decimal
mantissa with optional exponent. Returns the number and the unconsumed rest. -/
def parseNumericPrefix (cs : List Char) : Option (JSNum × List Char) :=
  let signed : Bool × List Char :=
    match cs with
    | '-' :: t => (true, t)
    | '+' :: t => (false, t)
    | t => (false, t)
  let neg := signed.1
  let cs1 := signed.2
  if cs1.take 8 = "Infinity".toList then
    some (if neg then JSNum.neginf else JSNum.inf, cs1.drop 8)
  else
    match parseUnsignedDecimal cs1 with
    | none => none
    | some (m, k, rest) =>
        let zr := parseExponentSuffix rest
        some (JSNum.rat (decimalValue neg m k zr.1), zr.2)

/-- Model of the JS Number() conversion applied to a string: trim whitespace;
an empty remainder is 0; otherwise the whole remainder must be one numeric
literal, and any other string is NaN. -/
def jsStringToNumber (s : String) : JSNum :=
  let cs := (s.toList.dropWhile isJsWhitespace).reverse.dropWhile isJsWhitespace |>.reverse
  if cs.isEmpty then JSNum.rat 0
  else
    match parseNumericPrefix cs with
    | some (n, []) => n
    | _ => JSNum.nan

/-- Model of the JS Number() conversion as applied by the functional parseXML
to a possibly-undefined text: Number(undefined) is NaN. -/
def jsNumberOf (v : Option String) : JSNum :=
  match v with
  | none => JSNum.nan
  | some s => jsStringToNumber s

/-- Model of the JS parseFloat() builtin on a string: skip leading whitespace
and read the longest valid numeric prefix, NaN when there is none. -/
def jsParseFloatStr (s : String) : JSNum :=
  match parseNumericPrefix (s.toList.dropWhile isJsWhitespace) with
  | some (n, _) => n
  | none => JSNum.nan

/-- Model of parseFloat as applied by the functional parseXML to a
possibly-undefined text: parseFloat(undefined) reads the string
"undefined", which has no numeric prefix, hence NaN. -/
def jsParseFloatOf (v : Option String) : JSNum :=
  match v with
  | none => JSNum.nan
  | some s => jsParseFloatStr s

/-! Model of the JavaScript builtin JSON.parse, following the JSON grammar:
a single value (object, array, string, strict decimal number, true, false,
null) surrounded by optional whitespace. Returns none exactly when the text
is not well-formed JSON, which is when JSON.parse throws a SyntaxError. -/

/-- JSON insignificant whitespace. -/
def skipJsonWs (cs : List Char) : List Char :=
  cs.dropWhile (fun c => c == ' ' || c == '\t' || c == '\n' || c == '\r')

/-- Value of a hexadecimal digit, by code point: 48-57 are the decimal
digits, 97-102 the lower-case letters, 65-70 the upper-case letters. -/
def hexVal (c : Char) : Option Nat :=
  let n := c.toNat
  if 48 ≤ n && n ≤ 57 then some (n - 48)
  else if 97 ≤ n && n ≤ 102 then some (n - 87)
  else if 65 ≤ n && n ≤ 70 then some (n - 55)
  else none

/-- Read the body of a JSON string after the opening quote, handling the
escape sequences of the JSON grammar; rejects unescaped control characters.
Surrogate-pair recombination is not modelled (each \u escape becomes one
character). Returns the string and the rest after the closing quote. -/
def parseJsonStringBody : Nat → List Char → List Char → Option (String × List Char)
  | 0, _, _ => none
  | _ + 1, '"' :: rest, acc => some (String.mk acc.reverse, rest)
  | f + 1, '\\' :: e :: rest, acc =>
      match e with
      | '"' => parseJsonStringBody f rest ('"' :: acc)
      | '\\' => parseJsonStringBody f rest ('\\' :: acc)
      | '/' => parseJsonStringBody f rest ('/' :: acc)
      | 'b' => parseJsonStringBody f rest ('\x08' :: acc)
      | 'f' => parseJsonStringBody f rest ('\x0c' :: acc)
      | 'n' => parseJsonStringBody f rest ('\n' :: acc)
      | 'r' => parseJsonStringBody f rest ('\r' :: acc)
      | 't' => parseJsonStringBody f rest ('\t' :: acc)
      | 'u' =>
          match rest with
          | a :: b :: c :: d :: rest2 =>
              match hexVal a, hexVal b, hexVal c, hexVal d with
              | some x, some y, some z, some w =>
                  parseJsonStringBody f rest2
                    (Char.ofNat (((x * 16 + y) * 16 + z) * 16 + w) :: acc)
              | _, _, _, _ => none
          | _ => none
      | _ => none
  | f + 1, c :: rest, acc =>
      if c.toNat < 32 then none else parseJsonStringBody f rest (c :: acc)
  | _ + 1, [], _ => none

/-- Read the optional exponent of a JSON number; unlike the Number() grammar,
an exponent marker that is not followed by a digit makes the number invalid. -/
def parseJsonExponent (neg : Bool) (m : Nat) (k : Nat) (cs : List Char) :
    Option (ℚ × List Char) :=
  match cs with
  | c :: cs2 =>
      if c == 'e' || c == 'E' then
        match cs2 with
        | '-' :: cs3 =>
            let ds := cs3.takeWhile isDigitCh
            if ds.isEmpty then none
            else some (decimalValue neg m k (-(natOfDigits ds : Int)), cs3.dropWhile isDigitCh)
        | '+' :: cs3 =>
            let ds := cs3.takeWhile isDigitCh
            if ds.isEmpty then none
            else some (decimalValue neg m k (natOfDigits ds : Int), cs3.dropWhile isDigitCh)
        | cs3 =>
            let ds := cs3.takeWhile isDigitCh
            if ds.isEmpty then none
            else some (decimalValue neg m k (natOfDigits ds : Int), cs3.dropWhile isDigitCh)
      else some (decimalValue neg m k 0, cs)
  | [] => some (decimalValue neg m k 0, [])

/-- Read the optional fraction then exponent of a JSON number whose integer
part has digits value m. -/
def parseJsonFraction (neg : Bool) (m : Nat) (cs : List Char) :
    Option (ℚ × List Char) :=
  match cs with
  | '.' :: cs2 =>
      let ds := cs2.takeWhile isDigitCh
      if ds.isEmpty then none
      else
        parseJsonExponent neg (m * 10 ^ ds.length + natOfDigits ds) ds.length
          (cs2.dropWhile isDigitCh)
  | _ => parseJsonExponent neg m 0 cs

/-- Read a JSON number: optional minus; an integer part that is 0 or starts
with a nonzero digit (leading zeros are invalid); optional fraction and
exponent. -/
def parseJsonNumber (cs : List Char) : Option (ℚ × List Char) :=
  let signed : Bool × List Char :=
    match cs with
    | '-' :: t => (true, t)
    | t => (false, t)
  let neg := signed.1
  match signed.2 with
  | '0' :: c :: rest =>
      if isDigitCh c then none else parseJsonFraction neg 0 (c :: rest)
  | ['0'] => parseJsonFraction neg 0 []
  | c :: rest =>
      if '1' ≤ c && c ≤ '9' then
        let ds := (c :: rest).takeWhile isDigitCh
        parseJsonFraction neg (natOfDigits ds) ((c :: rest).dropWhile isDigitCh)
      else none
  | [] => none

mutual

/-- Read one JSON value after skipping leading whitespace. -/
def parseJsonValue : Nat → List Char → Option (JSValue × List Char)
  | 0, _ => none
  | f + 1, cs =>
      match skipJsonWs cs with
      | '"' :: rest =>
          match parseJsonStringBody (rest.length + 1) rest [] with
          | some (s, rest2) => some (JSValue.str s, rest2)
          | none => none
      | '\x7b' :: rest =>
          match skipJsonWs rest with
          | '\x7d' :: rest2 => some (JSValue.obj [], rest2)
          | rest1 => parseJsonMembers f rest1 []
      | '[' :: rest =>
          match skipJsonWs rest with
          | ']' :: rest2 => some (JSValue.arr [], rest2)
          | rest1 => parseJsonElements f rest1 []
      | 't' :: 'r' :: 'u' :: 'e' :: rest => some (JSValue.bool true, rest)
      | 'f' :: 'a' :: 'l' :: 's' :: 'e' :: rest => some (JSValue.bool false, rest)
      | 'n' :: 'u' :: 'l' :: 'l' :: rest => some (JSValue.null, rest)
      | cs1 =>
          match parseJsonNumber cs1 with
          | some (q, rest) => some (JSValue.num (JSNum.rat q), rest)
          | none => none

/-- Read the members of a JSON object, the opening brace and any leading
whitespace already consumed, accumulating fields with later duplicate keys
overwriting the earlier value in place as JSON.parse does. -/
def parseJsonMembers : Nat → List Char → List (String × JSValue) →
    Option (JSValue × List Char)
  | 0, _, _ => none
  | f + 1, cs, acc =>
      match cs with
      | '"' :: rest =>
          match parseJsonStringBody (rest.length + 1) rest [] with
          | some (k, rest2) =>
              match skipJsonWs rest2 with
              | ':' :: rest3 =>
                  match parseJsonValue f rest3 with
                  | some (v, rest4) =>
                      match skipJsonWs rest4 with
                      | ',' :: rest5 => parseJsonMembers f (skipJsonWs rest5) (insertField acc k v)
                      | '\x7d' :: rest5 => some (JSValue.obj (insertField acc k v), rest5)
                      | _ => none
                  | none => none
              | _ => none
          | none => none
      | _ => none

/-- Read the elements of a JSON array, the opening bracket and any leading
whitespace already consumed. -/
def parseJsonElements : Nat → List Char → List JSValue →
    Option (JSValue × List Char)
  | 0, _, _ => none
  | f + 1, cs, acc =>
      match parseJsonValue f cs with
      | some (v, rest) =>
          match skipJsonWs rest with
          | ',' :: rest2 => parseJsonElements f rest2 (v :: acc)
          | ']' :: rest2 => some (JSValue.arr (v :: acc).reverse, rest2)
          | _ => none
      | none => none

end

/-- Model of JSON.parse: one JSON value surrounded by optional whitespace;
none models a thrown SyntaxError. -/
def jsonParse (s : String) : Option JSValue :=
  match parseJsonValue (2 * s.length + 2) s.toList with
  | some (v, rest) => if (skipJsonWs rest).isEmpty then some v else none
  | none => none

/-! Model of the browser DOM as far as the code uses it: an XML document is a
tree of element and text nodes (attributes play no role in the code and are
not modelled), getElementsByTagName collects elements in document order, and
textContent concatenates all descendant text. -/

/-- A node of a parsed XML document. -/
inductive XMLNode where
  | element : String → List XMLNode → XMLNode
  | text : String → XMLNode
deriving Repr

mutual

/-- Concatenated text of all descendant text nodes, as DOM textContent. -/
def textContent : XMLNode → String
  | XMLNode.element _ cs => textContentList cs
  | XMLNode.text s => s

/-- Concatenated textContent of a list of sibling nodes. -/
def textContentList : List XMLNode → String
  | [] => ""
  | c :: cs => textContent c ++ textContentList cs

end

mutual

/-- All elements with the given tag name in the subtree rooted at a node, the
node itself included, in document (pre-)order. Applied to the document root
this is Document.getElementsByTagName. -/
def elementsByTag (tag : String) : XMLNode → List XMLNode
  | XMLNode.element t cs =>
      (if t = tag then [XMLNode.element t cs] else []) ++ elementsByTagList tag cs
  | XMLNode.text _ => []

/-- All elements with the given tag name in a list of sibling subtrees, in
document order. -/
def elementsByTagList (tag : String) : List XMLNode → List XMLNode
  | [] => []
  | c :: cs => elementsByTag tag c ++ elementsByTagList tag cs

end

mutual

/-- All element nodes of a subtree, the root included, in document order. -/
def elementsPreorder : XMLNode → List XMLNode
  | XMLNode.element t cs => XMLNode.element t cs :: elementsPreorderList cs
  | XMLNode.text _ => []

/-- All element nodes of a list of sibling subtrees, in document order. -/
def elementsPreorderList : List XMLNode → List XMLNode
  | [] => []
  | c :: cs => elementsPreorder c ++ elementsPreorderList cs

end

/-- Element.getElementsByTagName: the elements with the given tag name among
the proper descendants of a node, in document order (the node itself is
excluded, unlike the document-level search). -/
def elemGetElementsByTagName (tag : String) : XMLNode → List XMLNode
  | XMLNode.element _ cs => elementsByTagList tag cs
  | XMLNode.text _ => []

/-- Embedding of node.getElementsByTagName(tag)[0]?.textContent: the text of
the first matching descendant element, none when there is none. -/
def firstTagText (tag : String) (n : XMLNode) : Option String :=
  (elemGetElementsByTagName tag n).head?.map textContent

/-- A possibly-missing text as the JS value the code stores in a record field:
undefined when the element was missing, the string otherwise. -/
def optTextVal : Option String → JSValue
  | none => JSValue.undef
  | some s => JSValue.str s

/-- The tag test used below for spec-side characterisations. -/
def isElementNamed (tag : String) : XMLNode → Bool
  | XMLNode.element t _ => t = tag
  | XMLNode.text _ => false

/-- The first child element (direct children only) with the given tag name;
this is the reading used by the specification text, compared against the
first-descendant behaviour of the code. -/
def firstChildNamed (tag : String) : XMLNode → Option XMLNode
  | XMLNode.element _ cs => cs.find? (isElementNamed tag)
  | XMLNode.text _ => none

/-! Model of DOMParser.parseFromString with mime type application/xml on the
markup fragment the endpoint produces: nested tags, text, self-closing tags.
Attributes, comments, CDATA and processing instructions are not modelled.
DOMParser never throws: malformed markup yields a document whose root is a
parsererror element, which is how browsers report XML syntax errors. -/

/-- Characters allowed in a tag name by this model. -/
def isNameChar (c : Char) : Bool :=
  c.isAlpha || c.isDigit || c == '-' || c == '_' || c == ':'

/-- Read a sequence of sibling nodes up to a closing tag or the end of input.
Returns the nodes and the unconsumed rest (left at a closing tag if any). -/
def parseXmlNodes : Nat → List Char → Option (List XMLNode × List Char)
  | 0, _ => none
  | f + 1, cs =>
      match cs with
      | [] => some ([], [])
      | '<' :: '/' :: _ => some ([], cs)
      | '<' :: rest =>
          let name := rest.takeWhile isNameChar
          if name.isEmpty then none
          else
            match rest.dropWhile isNameChar with
            | '/' :: '>' :: rest2 =>
                match parseXmlNodes f rest2 with
                | some (siblings, rest3) =>
                    some (XMLNode.element (String.mk name) [] :: siblings, rest3)
                | none => none
            | '>' :: rest2 =>
                match parseXmlNodes f rest2 with
                | some (children, rest3) =>
                    match rest3 with
                    | '<' :: '/' :: rest4 =>
                        if rest4.take name.length = name then
                          match rest4.drop name.length with
                          | '>' :: rest5 =>
                              match parseXmlNodes f rest5 with
                              | some (siblings, rest6) =>
                                  some (XMLNode.element (String.mk name) children :: siblings,
                                    rest6)
                              | none => none
                          | _ => none
                        else none
                    | _ => none
                | none => none
            | _ => none
      | _ :: _ =>
          let txt := cs.takeWhile (fun c => c != '<')
          match parseXmlNodes f (cs.dropWhile (fun c => c != '<')) with
          | some (siblings, rest) => some (XMLNode.text (String.mk txt) :: siblings, rest)
          | none => none

/-- The error document a browser DOMParser produces on malformed markup. -/
def parsererrorDoc : XMLNode :=
  XMLNode.element "parsererror" [XMLNode.text "XML parse error"]

/-- Keep element nodes and non-whitespace text when checking for a single
document root. -/
def isSignificantNode : XMLNode → Bool
  | XMLNode.element _ _ => true
  | XMLNode.text s => !(s.toList.all isJsWhitespace)

/-- Model of DOMParser.parseFromString: a document is one root element with
optional surrounding whitespace; anything else yields the parsererror
document, never an exception. -/
def domParseFromString (s : String) : XMLNode :=
  match parseXmlNodes (2 * s.length + 2) s.toList with
  | some (nodes, []) =>
      match nodes.filter isSignificantNode with
      | [XMLNode.element t cs] => XMLNode.element t cs
      | _ => parsererrorDoc
  | _ => parsererrorDoc

/-! Embedding of the HTTP layer: a call's observable input is the response
the endpoint gives for the requested URL, modelled as a function from URL to
response (the behaviour of the remote endpoint during the call). -/

/-- An HTTP response: status code and body text. -/
structure HttpResponse where
  status : Nat
  body : String
deriving DecidableEq, Repr

/-- The response.ok flag: status in the inclusive range 200 to 299. -/
def HttpResponse.ok (r : HttpResponse) : Bool :=
  200 ≤ r.status && r.status ≤ 299

/-- Behaviour of the remote endpoint: the response it returns per URL. -/
abbrev HttpBehaviour := String → HttpResponse

/-- The composed request URL, identical in both client variants:
baseURL/by-author?q=author&limit=limit&format=format. -/
def requestURL (baseURL authorName : String) (limit : Nat) (format : String) : String :=
  baseURL ++ "/by-author?q=" ++ authorName ++ "&limit=" ++ toString limit
    ++ "&format=" ++ format

/-- Message of the error thrown on a non-ok response status. -/
def requestFailedMessage (status : Nat) : String :=
  "Request failed with status " ++ toString status

/-- Message of the error thrown when no parser is registered for the format. -/
def unsupportedFormatMessage (format : String) : String :=
  "Unsupported format: " ++ format

/-- Model of the host-defined message of the SyntaxError that JSON.parse
throws on malformed input; its exact text is engine-specific and outside the
repository, so it is modelled as an uninterpreted function of the input. -/
def jsonEngineErrorMessage (_s : String) : String :=
  "Unexpected token in JSON"

/-- Message of the error rethrown by parseJSON: the source prefixes the
engine message with JSON Parsing Error. -/
def jsonParsingErrorMessage (s : String) : String :=
  "JSON Parsing Error: " ++ jsonEngineErrorMessage s

/-- Embedding of property access item.key in normaliseData: objects give the
field (undefined when absent), null and undefined throw a TypeError, and any
other primitive or array has no such property, giving undefined. -/
def propAccess (item : JSValue) (key : String) : Except JSError JSValue :=
  match item with
  | JSValue.obj fs => Except.ok (getField fs key)
  | JSValue.undef =>
      Except.error (JSError.typeError ("Cannot read properties of undefined (reading " ++ key ++ ")"))
  | JSValue.null =>
      Except.error (JSError.typeError ("Cannot read properties of null (reading " ++ key ++ ")"))
  | _ => Except.ok JSValue.undef

/-- One step of normaliseData: project the five canonical fields of an item. -/
def normaliseItem (item : JSValue) : Except JSError JSValue := do
  let t ← propAccess item "title"
  let a ← propAccess item "author"
  let i ← propAccess item "isbn"
  let q ← propAccess item "quantity"
  let p ← propAccess item "price"
  Except.ok (JSValue.obj
    [("title", t), ("author", a), ("isbn", i), ("quantity", q), ("price", p)])

/-- Embedding of normaliseData, the body shared verbatim by the two source
files: data.map over the five-field projection. A non-array data has no map
function (or is not even readable when null or undefined), so the call throws
a TypeError. -/
def normaliseData (data : JSValue) : JSResult :=
  match data with
  | JSValue.arr items => (items.mapM normaliseItem).map JSValue.arr
  | JSValue.undef =>
      Except.error (JSError.typeError "Cannot read properties of undefined (reading map)")
  | JSValue.null =>
      Except.error (JSError.typeError "Cannot read properties of null (reading map)")
  | _ => Except.error (JSError.typeError "data.map is not a function")

namespace BookSearchApiClient

/-- Embedding of BookSearchApiClient.parseJSON: JSON.parse wrapped so that a
SyntaxError is rethrown as an Error with the JSON Parsing Error prefix. -/
def parseJSON (jsonString : String) : JSResult :=
  match jsonParse jsonString with
  | some v => Except.ok v
  | none => Except.error (JSError.error (jsonParsingErrorMessage jsonString))

/-- Embedding of BookSearchApiClient.parseXML after DOMParser has produced
the document: one record per book element anywhere in the tree, each field
the textContent of the first matching descendant element, kept as raw text
(this variant applies no numeric coercion). The try/catch of the source never
fires: DOMParser reports malformed markup through a parsererror document
rather than by throwing. -/
def parseXMLDoc (xml : XMLNode) : JSResult :=
  Except.ok (JSValue.arr ((elementsByTag "book" xml).map (fun bookNode =>
    JSValue.obj
      [("title", optTextVal (firstTagText "title" bookNode)),
       ("author", optTextVal (firstTagText "author" bookNode)),
       ("isbn", optTextVal (firstTagText "isbn" bookNode)),
       ("quantity", optTextVal (firstTagText "quantity" bookNode)),
       ("price", optTextVal (firstTagText "price" bookNode))])))

/-- Embedding of BookSearchApiClient.parseXML on the raw body string. -/
def parseXML (xmlString : String) : JSResult :=
  parseXMLDoc (domParseFromString xmlString)

/-- The parser registry of the constructor: the object literal binding json
and xml (the csv line of the source is commented out). -/
def parsers : List (String × (String → JSResult)) :=
  [("json", parseJSON), ("xml", parseXML)]

/-- Embedding of BookSearchApiClient.normaliseData (verbatim copy of the
functional variant's normaliseData). -/
def normaliseData (data : JSValue) : JSResult :=
  BookSearch.normaliseData data

/-- Embedding of getBooksByAuthor on a client constructed with baseURL and
format: fetch, fail on a non-ok status, look the format up in the registry,
fail when absent, parse the body, normalise. The catch clause logs and
rethrows the error unchanged, so it leaves the outcome as is. -/
def getBooksByAuthor (http : HttpBehaviour) (baseURL format : String)
    (authorName : String) (limit : Nat := 10) : JSResult :=
  let response := http (requestURL baseURL authorName limit format)
  if !response.ok then
    Except.error (JSError.error (requestFailedMessage response.status))
  else
    let rawData := response.body
    match parsers.lookup format with
    | none => Except.error (JSError.error (unsupportedFormatMessage format))
    | some parse =>
        match parse rawData with
        | Except.ok data => normaliseData data
        | Except.error e => Except.error e

end BookSearchApiClient

namespace Functional

/-- Embedding of the functional module's parseJSON (verbatim copy of the
class variant). -/
def parseJSON (jsonString : String) : JSResult :=
  match jsonParse jsonString with
  | some v => Except.ok v
  | none => Except.error (JSError.error (jsonParsingErrorMessage jsonString))

/-- Embedding of the functional parseXML after DOMParser: as the class
variant, but quantity is coerced with Number() and price with parseFloat(). -/
def parseXMLDoc (xml : XMLNode) : JSResult :=
  Except.ok (JSValue.arr ((elementsByTag "book" xml).map (fun bookNode =>
    JSValue.obj
      [("title", optTextVal (firstTagText "title" bookNode)),
       ("author", optTextVal (firstTagText "author" bookNode)),
       ("isbn", optTextVal (firstTagText "isbn" bookNode)),
       ("quantity", JSValue.num (jsNumberOf (firstTagText "quantity" bookNode))),
       ("price", JSValue.num (jsParseFloatOf (firstTagText "price" bookNode)))])))

/-- Embedding of the functional parseXML on the raw body string. -/
def parseXML (xmlString : String) : JSResult :=
  parseXMLDoc (domParseFromString xmlString)

/-- Embedding of the functional module's normaliseData (the same body as the
class variant's). -/
def normaliseData (data : JSValue) : JSResult :=
  BookSearch.normaliseData data

/-- Identifier resolution in the functional module's scope, restricted to the
identifiers the parser-registry literal references: the module declares
parseJSON and parseXML; parseCSV is declared nowhere (its definition is
commented out), so evaluating the identifier throws a ReferenceError. -/
def resolveId (name : String) : Except JSError (String → JSResult) :=
  if name = "parseJSON" then Except.ok parseJSON
  else if name = "parseXML" then Except.ok parseXML
  else Except.error (JSError.referenceError (name ++ " is not defined"))

/-- Evaluation of the registry object literal of fetchBooksByAuthor: each
property value is an identifier, evaluated left to right; the csv property
evaluates the undeclared parseCSV. -/
def buildParsers : Except JSError (List (String × (String → JSResult))) := do
  let j ← resolveId "parseJSON"
  let x ← resolveId "parseXML"
  let c ← resolveId "parseCSV"
  Except.ok [("json", j), ("xml", x), ("csv", c)]

/-- The config object taken by fetchBooksByAuthor, with the source defaults. -/
structure FetchConfig where
  baseURL : String
  authorName : String
  limit : Nat := 10
  format : String := "json"

/-- Embedding of fetchBooksByAuthor: the registry literal is evaluated first
(outside the try block); then fetch, status check, registry lookup, parse and
normalise as in the class variant. The catch clause logs and rethrows
unchanged. -/
def fetchBooksByAuthor (http : HttpBehaviour) (cfg : FetchConfig) : JSResult :=
  match buildParsers with
  | Except.error e => Except.error e
  | Except.ok ps =>
      let response := http (requestURL cfg.baseURL cfg.authorName cfg.limit cfg.format)
      if !response.ok then
        Except.error (JSError.error (requestFailedMessage response.status))
      else
        let rawData := response.body
        match ps.lookup cfg.format with
        | none => Except.error (JSError.error (unsupportedFormatMessage cfg.format))
        | some parse =>
            match parse rawData with
            | Except.ok data => normaliseData data
            | Except.error e => Except.error e

/-- Modelled from the spec: the functional entry point as section 4.2 of the
specification describes it, the csv format being simply absent from the
registry map, so that the registry literal evaluates without error. This is
the spec-side definition the corrected equivalence claim compares against the
object-oriented client. -/
def fetchBooksByAuthorSpec (http : HttpBehaviour) (cfg : FetchConfig) : JSResult :=
  let ps : List (String × (String → JSResult)) := [("json", parseJSON), ("xml", parseXML)]
  let response := http (requestURL cfg.baseURL cfg.authorName cfg.limit cfg.format)
  if !response.ok then
    Except.error (JSError.error (requestFailedMessage response.status))
  else
    let rawData := response.body
    match ps.lookup cfg.format with
    | none => Except.error (JSError.error (unsupportedFormatMessage cfg.format))
    | some parse =>
        match parse rawData with
        | Except.ok data => normaliseData data
        | Except.error e => Except.error e

end Functional

/-! Observation helpers used to state the claims, and the endpoint behaviour
used for concrete instances. -/

/-- Discriminator: is the value a JS number (NaN and infinities included)? -/
def JSValue.isNumber : JSValue → Bool
  | JSValue.num _ => true
  | _ => false

/-- Discriminator: is the value an array? -/
def JSValue.isArray : JSValue → Bool
  | JSValue.arr _ => true
  | _ => false

/-- Discriminator: is the value a raw text field, that is a string or
undefined? -/
def JSValue.isStringOrUndef : JSValue → Bool
  | JSValue.str _ => true
  | JSValue.undef => true
  | _ => false

/-- Field of a record value: the field of an object, undefined otherwise. -/
def recField (v : JSValue) (k : String) : JSValue :=
  match v with
  | JSValue.obj fs => getField fs k
  | _ => JSValue.undef

/-- The five canonical field names of a book record. -/
def canonicalKeys : List String := ["title", "author", "isbn", "quantity", "price"]

/-- The five-field projection normaliseData applies to each record. -/
def canonicalProjection (fs : List (String × JSValue)) : List (String × JSValue) :=
  [("title", getField fs "title"), ("author", getField fs "author"),
   ("isbn", getField fs "isbn"), ("quantity", getField fs "quantity"),
   ("price", getField fs "price")]

/-- An endpoint that answers every URL with the same response. -/
def constHttp (st : Nat) (b : String) : HttpBehaviour := fun _ => ⟨st, b⟩

/-- The first proper-descendant element with the given tag name, in document
order, characterised through the independent preorder traversal. -/
def firstDescendantNamed (tag : String) : XMLNode → Option XMLNode
  | XMLNode.element _ cs => (elementsPreorderList cs).find? (isElementNamed tag)
  | XMLNode.text _ => none

/-! Sanity checks of the builtin models on concrete inputs. -/

example : getField [("a", JSValue.null)] "a" = JSValue.null := rfl
example : getField [("a", JSValue.null)] "b" = JSValue.undef := rfl
example : jsStringToNumber "3" = JSNum.rat 3 := by decide
example : jsStringToNumber " 12.5 " = JSNum.rat (mkRat 25 2) := by decide
example : jsStringToNumber "abc" = JSNum.nan := by decide
example : jsStringToNumber "" = JSNum.rat 0 := by decide
example : jsStringToNumber "1e3" = JSNum.rat 1000 := by decide
example : jsStringToNumber "3.5abc" = JSNum.nan := by decide
example : jsParseFloatStr "3.5abc" = JSNum.rat (mkRat 7 2) := by decide
example : jsParseFloatStr "abc" = JSNum.nan := by decide
example : jsParseFloatStr "-2.5e-1" = JSNum.rat (mkRat (-1) 4) := by decide
example : jsStringToNumber "-Infinity" = JSNum.neginf := by decide
example : jsStringToNumber "9.99" = JSNum.rat (mkRat 999 100) := by decide

/-! Helper lemmas shared by the claim theorems. -/

/-- The functional registry literal always fails: parseCSV is undeclared. -/
theorem buildParsers_fails :
    Functional.buildParsers =
      Except.error (JSError.referenceError "parseCSV is not defined") := rfl

/-- Every call to the functional entry point rejects with the ReferenceError
raised while evaluating the registry literal. -/
theorem fetchBooksByAuthor_always_referenceError (http : HttpBehaviour)
    (cfg : Functional.FetchConfig) :
    Functional.fetchBooksByAuthor http cfg =
      Except.error (JSError.referenceError "parseCSV is not defined") := rfl

/-- normaliseItem on an object is the canonical five-field projection. -/
theorem normaliseItem_obj (fs : List (String × JSValue)) :
    normaliseItem (JSValue.obj fs) =
      Except.ok (JSValue.obj (canonicalProjection fs)) := rfl

/-- mapM of normaliseItem over a list of objects collects the projections. -/
theorem mapM_normaliseItem_objs (objs : List (List (String × JSValue))) :
    (objs.map JSValue.obj).mapM normaliseItem =
      Except.ok (objs.map (fun fs => JSValue.obj (canonicalProjection fs))) := by
  induction objs with
  | nil => rfl
  | cons fs rest ih =>
      simp only [List.map_cons, List.mapM_cons, normaliseItem_obj, ih]
      rfl

/-- normaliseData on an array of objects projects each object in order. -/
theorem normaliseData_objs (objs : List (List (String × JSValue))) :
    normaliseData (JSValue.arr (objs.map JSValue.obj)) =
      Except.ok (JSValue.arr (objs.map (fun fs => JSValue.obj (canonicalProjection fs)))) := by
  simp only [normaliseData, mapM_normaliseItem_objs, Except.map]

/-- Projecting a projected record changes nothing. -/
theorem canonicalProjection_idem (fs : List (String × JSValue)) :
    canonicalProjection (canonicalProjection fs) = canonicalProjection fs := rfl

/-- A raw text field is always a string or undefined. -/
theorem optTextVal_isStringOrUndef (o : Option String) :
    (optTextVal o).isStringOrUndef = true := by
  cases o <;> rfl

/-- The head of a filtered list is the first element satisfying the test. -/
theorem head?_filter_eq_find? (p : α → Bool) :
    ∀ l : List α, (l.filter p).head? = l.find? p
  | [] => rfl
  | a :: l => by
      by_cases h : p a
      · simp [List.filter_cons, List.find?_cons, h]
      · simp [List.filter_cons, List.find?_cons, h, head?_filter_eq_find? p l]

mutual

/-- The tag-name search is the preorder element traversal filtered by tag. -/
theorem elementsByTag_eq_filter (tag : String) :
    ∀ n : XMLNode, elementsByTag tag n = (elementsPreorder n).filter (isElementNamed tag)
  | XMLNode.element t cs => by
      by_cases h : t = tag
      · simp [elementsByTag, elementsPreorder, isElementNamed, h,
          elementsByTagList_eq_filter tag cs]
      · simp [elementsByTag, elementsPreorder, isElementNamed, h,
          elementsByTagList_eq_filter tag cs]
  | XMLNode.text s => rfl

/-- List version of elementsByTag_eq_filter. -/
theorem elementsByTagList_eq_filter (tag : String) :
    ∀ cs : List XMLNode,
      elementsByTagList tag cs = (elementsPreorderList cs).filter (isElementNamed tag)
  | [] => rfl
  | c :: cs => by
      simp [elementsByTagList, elementsPreorderList, List.filter_append,
        elementsByTag_eq_filter tag c, elementsByTagList_eq_filter tag cs]

end

/-- The first element the code extracts per field is the first matching
proper descendant in document order. -/
theorem firstTagText_eq_descendant (tag : String) (n : XMLNode) :
    firstTagText tag n = (firstDescendantNamed tag n).map textContent := by
  cases n with
  | element t cs =>
      simp [firstTagText, elemGetElementsByTagName, firstDescendantNamed,
        elementsByTagList_eq_filter, head?_filter_eq_find?]
  | text s => rfl

/-- For every format other than xml, the spec reading of the functional entry
point (csv absent from the registry) coincides with the object-oriented
client on every input and endpoint behaviour. -/
theorem specFunctional_eq_oo (http : HttpBehaviour) (cfg : Functional.FetchConfig)
    (h : cfg.format ≠ "xml") :
    Functional.fetchBooksByAuthorSpec http cfg =
      BookSearchApiClient.getBooksByAuthor http cfg.baseURL cfg.format
        cfg.authorName cfg.limit := by
  unfold Functional.fetchBooksByAuthorSpec BookSearchApiClient.getBooksByAuthor
  by_cases hj : cfg.format = "json"
  · simp [hj, BookSearchApiClient.parsers, List.lookup, Functional.parseJSON,
      BookSearchApiClient.parseJSON, Functional.normaliseData,
      BookSearchApiClient.normaliseData]
  · by_cases hx : cfg.format = "xml"
    · exact absurd hx h
    · have hj2 : (cfg.format == "json") = false := beq_eq_false_iff_ne.mpr hj
      have hx2 : (cfg.format == "xml") = false := beq_eq_false_iff_ne.mpr hx
      simp [BookSearchApiClient.parsers, List.lookup, hj2, hx2]

/-! Claim theorems. -/

/-- C1, counterexample: the two entry points are not equivalent. On format
json with a 200 response whose body is the empty JSON array, the
object-oriented client resolves to the empty array, while the functional
entry point rejects with the ReferenceError from its registry literal. -/
theorem c1_counterexample :
    BookSearchApiClient.getBooksByAuthor (constHttp 200 "[]")
        "http://api.example.com" "json" "Shakespeare" 10 =
      Except.ok (JSValue.arr []) ∧
    Functional.fetchBooksByAuthor (constHttp 200 "[]")
        ⟨"http://api.example.com", "Shakespeare", 10, "json"⟩ =
      Except.error (JSError.referenceError "parseCSV is not defined") ∧
    (Except.ok (JSValue.arr []) : JSResult) ≠
      Except.error (JSError.referenceError "parseCSV is not defined") :=
  ⟨rfl, rfl, by simp⟩

/-- C1, amended: as written the entry points are not equivalent, because
fetchBooksByAuthor rejects with a ReferenceError on every input. Against the
spec reading of the functional registry (csv simply absent from the map) the
two produce identical outcomes for every input whose format is not xml; for
xml they can differ, since only the functional parseXML coerces quantity and
price to numbers. -/
theorem c1_amended :
    (∀ (http : HttpBehaviour) (cfg : Functional.FetchConfig),
        Functional.fetchBooksByAuthor http cfg =
          Except.error (JSError.referenceError "parseCSV is not defined")) ∧
    (∀ (http : HttpBehaviour) (cfg : Functional.FetchConfig), cfg.format ≠ "xml" →
        Functional.fetchBooksByAuthorSpec http cfg =
          BookSearchApiClient.getBooksByAuthor http cfg.baseURL cfg.format
            cfg.authorName cfg.limit) ∧
    Functional.fetchBooksByAuthorSpec
        (constHttp 200 "<books><book><quantity>3</quantity></book></books>")
        ⟨"b", "a", 10, "xml"⟩ ≠
      BookSearchApiClient.getBooksByAuthor
        (constHttp 200 "<books><book><quantity>3</quantity></book></books>")
        "b" "xml" "a" 10 := by
  refine ⟨fetchBooksByAuthor_always_referenceError, specFunctional_eq_oo, ?_⟩
  intro h
  have hs : Functional.fetchBooksByAuthorSpec
      (constHttp 200 "<books><book><quantity>3</quantity></book></books>")
      ⟨"b", "a", 10, "xml"⟩ =
      Except.ok (JSValue.arr [JSValue.obj
        [("title", JSValue.undef), ("author", JSValue.undef), ("isbn", JSValue.undef),
         ("quantity", JSValue.num (JSNum.rat 3)), ("price", JSValue.num JSNum.nan)]]) := rfl
  have ho : BookSearchApiClient.getBooksByAuthor
      (constHttp 200 "<books><book><quantity>3</quantity></book></books>")
      "b" "xml" "a" 10 =
      Except.ok (JSValue.arr [JSValue.obj
        [("title", JSValue.undef), ("author", JSValue.undef), ("isbn", JSValue.undef),
         ("quantity", JSValue.str "3"), ("price", JSValue.undef)]]) := rfl
  rw [hs, ho] at h
  simp at h

/-- C1, witness: the amended equivalence applied at format json with a 200
empty-array response. -/
theorem c1_amended_witness :
    Functional.fetchBooksByAuthorSpec (constHttp 200 "[]") ⟨"b", "a", 10, "json"⟩ =
      BookSearchApiClient.getBooksByAuthor (constHttp 200 "[]") "b" "json" "a" 10 :=
  c1_amended.2.1 (constHttp 200 "[]") ⟨"b", "a", 10, "json"⟩ (by simp)

/-- C2: every call to the functional entry point, for every endpoint
behaviour and every config (any format, any response), rejects with the
ReferenceError raised while the parser-registry literal evaluates the
undeclared identifier parseCSV; no call resolves. -/
theorem c2_functional_always_rejects (http : HttpBehaviour)
    (cfg : Functional.FetchConfig) :
    Functional.fetchBooksByAuthor http cfg =
      Except.error (JSError.referenceError "parseCSV is not defined") :=
  fetchBooksByAuthor_always_referenceError http cfg

/-- C4: on format csv with a 200 response the object-oriented client rejects
with the unsupported-format error as the claim says, but the functional entry
point rejects with the registry ReferenceError instead, contradicting the
claim; this is the code slip the spec does not intend. -/
theorem c4_csv_behaviour :
    BookSearchApiClient.getBooksByAuthor (constHttp 200 "any body") "b" "csv" "a" 10 =
      Except.error (JSError.error "Unsupported format: csv") ∧
    Functional.fetchBooksByAuthor (constHttp 200 "any body") ⟨"b", "a", 10, "csv"⟩ =
      Except.error (JSError.referenceError "parseCSV is not defined") :=
  ⟨rfl, rfl⟩

/-- C7: for every response body that is not well-formed JSON (and an ok
status), the object-oriented client on format json rejects with the JSON
Parsing Error failure as the claim says; the functional entry point on the
same input instead rejects with the registry ReferenceError, contradicting
the claim. -/
theorem c7_malformed_json_behaviour :
    (∀ body : String, jsonParse body = none →
      ∀ (http : HttpBehaviour) (baseURL authorName : String) (limit : Nat),
        (http (requestURL baseURL authorName limit "json")).ok = true →
        (http (requestURL baseURL authorName limit "json")).body = body →
        BookSearchApiClient.getBooksByAuthor http baseURL "json" authorName limit =
          Except.error (JSError.error (jsonParsingErrorMessage body))) ∧
    Functional.fetchBooksByAuthor (constHttp 200 "\x7bnot valid")
        ⟨"b", "a", 10, "json"⟩ =
      Except.error (JSError.referenceError "parseCSV is not defined") := by
  refine ⟨?_, rfl⟩
  intro body hb http baseURL authorName limit hok hbody
  simp only [BookSearchApiClient.getBooksByAuthor, hok, Bool.not_true,
    Bool.false_eq_true, if_false, BookSearchApiClient.parsers, List.lookup, hbody]
  simp [BookSearchApiClient.parseJSON, hb]

/-- C7, witness: the object-oriented half applied at the malformed body of
the claim with a 200 response. -/
theorem c7_witness :
    jsonParse "\x7bnot valid" = none ∧
    BookSearchApiClient.getBooksByAuthor (constHttp 200 "\x7bnot valid")
        "b" "json" "a" 10 =
      Except.error (JSError.error (jsonParsingErrorMessage "\x7bnot valid")) :=
  ⟨rfl, c7_malformed_json_behaviour.1 "\x7bnot valid" rfl (constHttp 200 "\x7bnot valid")
    "b" "a" 10 rfl rfl⟩

/-- C8: whenever the response status is not ok, the object-oriented client
rejects with the request-failed error carrying that status, before any
parser runs, as the claim says; the functional entry point however rejects
with the registry ReferenceError even before fetching, contradicting the
claim. -/
theorem c8_non2xx_behaviour :
    (∀ (http : HttpBehaviour) (baseURL format authorName : String) (limit : Nat),
        (http (requestURL baseURL authorName limit format)).ok = false →
        BookSearchApiClient.getBooksByAuthor http baseURL format authorName limit =
          Except.error (JSError.error
            (requestFailedMessage (http (requestURL baseURL authorName limit format)).status))) ∧
    Functional.fetchBooksByAuthor (constHttp 500 "body") ⟨"b", "a", 10, "json"⟩ =
      Except.error (JSError.referenceError "parseCSV is not defined") := by
  refine ⟨?_, rfl⟩
  intro http baseURL format authorName limit hok
  simp [BookSearchApiClient.getBooksByAuthor, hok]

/-- C8, witness: the object-oriented half applied at a status 500 response. -/
theorem c8_witness :
    (constHttp 500 "x" (requestURL "b" "a" 10 "json")).ok = false ∧
    BookSearchApiClient.getBooksByAuthor (constHttp 500 "x") "b" "json" "a" 10 =
      Except.error (JSError.error "Request failed with status 500") :=
  ⟨rfl, c8_non2xx_behaviour.1 (constHttp 500 "x") "b" "json" "a" 10 rfl⟩

/-- C3, counterexample: the object-oriented parseXML does not coerce: on a
book whose quantity text is 3 and price text is 9.99 it produces the strings
as they stand, not numbers. -/
theorem c3_counterexample :
    BookSearchApiClient.parseXML
        "<books><book><quantity>3</quantity><price>9.99</price></book></books>" =
      Except.ok (JSValue.arr [JSValue.obj
        [("title", JSValue.undef), ("author", JSValue.undef), ("isbn", JSValue.undef),
         ("quantity", JSValue.str "3"), ("price", JSValue.str "9.99")]]) ∧
    JSValue.isNumber (JSValue.str "3") = false ∧
    JSValue.isNumber (JSValue.str "9.99") = false :=
  ⟨rfl, rfl, rfl⟩

/-- C3, amended: the coercion claim holds for the functional parseXML only:
every record it produces carries numbers (NaN included) in quantity and
price, and missing or non-numeric text passes through as NaN rather than an
error; the object-oriented parseXML instead leaves quantity and price as raw
text, a string or undefined. -/
theorem c3_amended :
    (∀ (doc : XMLNode) (out : List JSValue),
        Functional.parseXMLDoc doc = Except.ok (JSValue.arr out) →
        ∀ r ∈ out, (recField r "quantity").isNumber = true ∧
          (recField r "price").isNumber = true) ∧
    (∀ (doc : XMLNode) (out : List JSValue),
        BookSearchApiClient.parseXMLDoc doc = Except.ok (JSValue.arr out) →
        ∀ r ∈ out, (recField r "quantity").isStringOrUndef = true ∧
          (recField r "price").isStringOrUndef = true) ∧
    Functional.parseXMLDoc (XMLNode.element "books" [XMLNode.element "book"
        [XMLNode.element "quantity" [XMLNode.text "abc"]]]) =
      Except.ok (JSValue.arr [JSValue.obj
        [("title", JSValue.undef), ("author", JSValue.undef), ("isbn", JSValue.undef),
         ("quantity", JSValue.num JSNum.nan), ("price", JSValue.num JSNum.nan)]]) := by
  refine ⟨?_, ?_, rfl⟩
  · intro doc out h r hr
    simp only [Functional.parseXMLDoc, Except.ok.injEq, JSValue.arr.injEq] at h
    subst h
    obtain ⟨b, hb, rfl⟩ := List.mem_map.mp hr
    exact ⟨rfl, rfl⟩
  · intro doc out h r hr
    simp only [BookSearchApiClient.parseXMLDoc, Except.ok.injEq, JSValue.arr.injEq] at h
    subst h
    obtain ⟨b, hb, rfl⟩ := List.mem_map.mp hr
    exact ⟨optTextVal_isStringOrUndef (firstTagText "quantity" b),
      optTextVal_isStringOrUndef (firstTagText "price" b)⟩

/-- C3, witness: the functional half applied at a one-book document whose
quantity text is non-numeric and whose price element is missing. -/
theorem c3_amended_witness :
    (recField (JSValue.obj
        [("title", JSValue.undef), ("author", JSValue.undef), ("isbn", JSValue.undef),
         ("quantity", JSValue.num JSNum.nan), ("price", JSValue.num JSNum.nan)])
      "quantity").isNumber = true ∧
    (recField (JSValue.obj
        [("title", JSValue.undef), ("author", JSValue.undef), ("isbn", JSValue.undef),
         ("quantity", JSValue.num JSNum.nan), ("price", JSValue.num JSNum.nan)])
      "price").isNumber = true :=
  c3_amended.1
    (XMLNode.element "books" [XMLNode.element "book"
      [XMLNode.element "quantity" [XMLNode.text "abc"]]])
    [JSValue.obj
      [("title", JSValue.undef), ("author", JSValue.undef), ("isbn", JSValue.undef),
       ("quantity", JSValue.num JSNum.nan), ("price", JSValue.num JSNum.nan)]]
    rfl
    (JSValue.obj
      [("title", JSValue.undef), ("author", JSValue.undef), ("isbn", JSValue.undef),
       ("quantity", JSValue.num JSNum.nan), ("price", JSValue.num JSNum.nan)])
    (by simp)

/-- C9, counterexample: the per-field extraction is not by first child. On a
book whose first child is a meta element wrapping a title Nested, with a
direct child title Top after it, the code extracts Nested (the first
descendant in document order) while the first child element named title has
text Top. -/
theorem c9_counterexample :
    BookSearchApiClient.parseXMLDoc (XMLNode.element "books" [XMLNode.element "book"
        [XMLNode.element "meta" [XMLNode.element "title" [XMLNode.text "Nested"]],
         XMLNode.element "title" [XMLNode.text "Top"]]]) =
      Except.ok (JSValue.arr [JSValue.obj
        [("title", JSValue.str "Nested"), ("author", JSValue.undef),
         ("isbn", JSValue.undef), ("quantity", JSValue.undef),
         ("price", JSValue.undef)]]) ∧
    (firstChildNamed "title" (XMLNode.element "book"
        [XMLNode.element "meta" [XMLNode.element "title" [XMLNode.text "Nested"]],
         XMLNode.element "title" [XMLNode.text "Top"]])).map textContent = some "Top" ∧
    ("Nested" : String) ≠ "Top" :=
  ⟨rfl, rfl, by decide⟩

/-- C9, amended: parseXML produces one record per element named book at any
depth, in document order (the tag search is the preorder traversal filtered
by name, not restricted to children of a fixed root); each of the five fields
is taken from the first matching proper-descendant element — not the first
child —, and a missing element yields undefined for the field. -/
theorem c9_amended (doc : XMLNode) (out : List JSValue)
    (h : BookSearchApiClient.parseXMLDoc doc = Except.ok (JSValue.arr out)) :
    elementsByTag "book" doc = (elementsPreorder doc).filter (isElementNamed "book") ∧
    out.length = (elementsByTag "book" doc).length ∧
    ∀ (i : Nat) (b : XMLNode), (elementsByTag "book" doc)[i]? = some b →
      out[i]? = some (JSValue.obj
        [("title", optTextVal ((firstDescendantNamed "title" b).map textContent)),
         ("author", optTextVal ((firstDescendantNamed "author" b).map textContent)),
         ("isbn", optTextVal ((firstDescendantNamed "isbn" b).map textContent)),
         ("quantity", optTextVal ((firstDescendantNamed "quantity" b).map textContent)),
         ("price", optTextVal ((firstDescendantNamed "price" b).map textContent))]) := by
  simp only [BookSearchApiClient.parseXMLDoc, Except.ok.injEq, JSValue.arr.injEq] at h
  subst h
  refine ⟨elementsByTag_eq_filter "book" doc, by simp, ?_⟩
  intro i b hb
  rw [List.getElem?_map, hb]
  simp [firstTagText_eq_descendant]

/-- C9, witness: the amended statement applied at the nested-title document,
the extracted title being the first descendant Nested. -/
theorem c9_amended_witness :
    ([JSValue.obj
        [("title", JSValue.str "Nested"), ("author", JSValue.undef),
         ("isbn", JSValue.undef), ("quantity", JSValue.undef),
         ("price", JSValue.undef)]] : List JSValue)[0]? = some (JSValue.obj
      [("title", JSValue.str "Nested"), ("author", JSValue.undef),
       ("isbn", JSValue.undef), ("quantity", JSValue.undef),
       ("price", JSValue.undef)]) :=
  (c9_amended
    (XMLNode.element "books" [XMLNode.element "book"
      [XMLNode.element "meta" [XMLNode.element "title" [XMLNode.text "Nested"]],
       XMLNode.element "title" [XMLNode.text "Top"]]])
    [JSValue.obj
      [("title", JSValue.str "Nested"), ("author", JSValue.undef),
       ("isbn", JSValue.undef), ("quantity", JSValue.undef),
       ("price", JSValue.undef)]]
    rfl).2.2 0
    (XMLNode.element "book"
      [XMLNode.element "meta" [XMLNode.element "title" [XMLNode.text "Nested"]],
       XMLNode.element "title" [XMLNode.text "Top"]])
    rfl

/-- C5: normaliseData on an array of book-shaped records produces exactly one
output record per input record in order; each output record carries exactly
the five canonical keys, with values looked up unchanged from the input
record (undefined when the input lacks the field), and no other input field
survives. -/
theorem c5_normalise_projection (objs : List (List (String × JSValue))) (i : Nat)
    (hi : i < objs.length) :
    ∃ out fs fields,
      normaliseData (JSValue.arr (objs.map JSValue.obj)) = Except.ok (JSValue.arr out) ∧
      out.length = objs.length ∧
      objs[i]? = some fs ∧
      out[i]? = some (JSValue.obj fields) ∧
      fields.map Prod.fst = canonicalKeys ∧
      (∀ k ∈ canonicalKeys, getField fields k = getField fs k) ∧
      (∀ k, k ∉ canonicalKeys → fields.lookup k = none) := by
  obtain ⟨fs, hfs⟩ : ∃ fs, objs[i]? = some fs := ⟨_, List.getElem?_eq_getElem hi⟩
  refine ⟨objs.map (fun fs => JSValue.obj (canonicalProjection fs)), fs,
    canonicalProjection fs, normaliseData_objs objs, by simp, hfs, ?_, rfl, ?_, ?_⟩
  · rw [List.getElem?_map, hfs]; rfl
  · intro k hk
    simp only [canonicalKeys, List.mem_cons, List.not_mem_nil, or_false] at hk
    rcases hk with rfl | rfl | rfl | rfl | rfl <;> rfl
  · intro k hk
    simp only [canonicalKeys, List.mem_cons, List.not_mem_nil, or_false, not_or] at hk
    obtain ⟨h1, h2, h3, h4, h5⟩ := hk
    have e1 : (k == "title") = false := beq_eq_false_iff_ne.mpr h1
    have e2 : (k == "author") = false := beq_eq_false_iff_ne.mpr h2
    have e3 : (k == "isbn") = false := beq_eq_false_iff_ne.mpr h3
    have e4 : (k == "quantity") = false := beq_eq_false_iff_ne.mpr h4
    have e5 : (k == "price") = false := beq_eq_false_iff_ne.mpr h5
    simp [canonicalProjection, List.lookup, e1, e2, e3, e4, e5]

/-- C5, witness: the projection applied at a one-record array carrying an
extra field. -/
theorem c5_witness :
    (0 : Nat) < ([[("title", JSValue.str "T"), ("extra", JSValue.null)]] :
      List (List (String × JSValue))).length ∧
    ∃ out fs fields,
      normaliseData (JSValue.arr
          (([[("title", JSValue.str "T"), ("extra", JSValue.null)]] :
            List (List (String × JSValue))).map JSValue.obj)) =
        Except.ok (JSValue.arr out) ∧
      out.length = ([[("title", JSValue.str "T"), ("extra", JSValue.null)]] :
        List (List (String × JSValue))).length ∧
      ([[("title", JSValue.str "T"), ("extra", JSValue.null)]] :
        List (List (String × JSValue)))[0]? = some fs ∧
      out[0]? = some (JSValue.obj fields) ∧
      fields.map Prod.fst = canonicalKeys ∧
      (∀ k ∈ canonicalKeys, getField fields k = getField fs k) ∧
      (∀ k, k ∉ canonicalKeys → fields.lookup k = none) :=
  ⟨by decide,
    c5_normalise_projection [[("title", JSValue.str "T"), ("extra", JSValue.null)]] 0
      (by decide)⟩

/-- Helper for C6: re-normalising a list of already-projected records changes
nothing. -/
theorem normaliseData_projected (objs : List (List (String × JSValue))) :
    normaliseData (JSValue.arr (objs.map (fun fs => JSValue.obj (canonicalProjection fs)))) =
      Except.ok (JSValue.arr (objs.map (fun fs => JSValue.obj (canonicalProjection fs)))) := by
  have h := normaliseData_objs (objs.map canonicalProjection)
  simpa [List.map_map, Function.comp, canonicalProjection_idem] using h

/-- C6: normalisation is idempotent: whatever normaliseData produces on an
array of book-shaped records, normalising its output again returns that
output unchanged. -/
theorem c6_normalise_idempotent (objs : List (List (String × JSValue))) (out : JSValue)
    (h : normaliseData (JSValue.arr (objs.map JSValue.obj)) = Except.ok out) :
    normaliseData out = Except.ok out := by
  rw [normaliseData_objs] at h
  obtain rfl := Except.ok.inj h
  exact normaliseData_projected objs

/-- C6, witness: idempotence applied at a one-record array. -/
theorem c6_witness :
    normaliseData (JSValue.arr [JSValue.obj
        [("title", JSValue.str "T"), ("author", JSValue.undef), ("isbn", JSValue.undef),
         ("quantity", JSValue.undef), ("price", JSValue.undef)]]) =
      Except.ok (JSValue.arr [JSValue.obj
        [("title", JSValue.str "T"), ("author", JSValue.undef), ("isbn", JSValue.undef),
         ("quantity", JSValue.undef), ("price", JSValue.undef)]]) :=
  c6_normalise_idempotent [[("title", JSValue.str "T")]]
    (JSValue.arr [JSValue.obj
      [("title", JSValue.str "T"), ("author", JSValue.undef), ("isbn", JSValue.undef),
       ("quantity", JSValue.undef), ("price", JSValue.undef)]])
    rfl

/-- C10: when the response body is well-formed JSON whose top-level value is
not an array, parseJSON succeeds with that value unchanged and the call on
format json rejects with a TypeError from normaliseData mapping over a
non-array, not with a ParseError. -/
theorem c10_nonarray_json (http : HttpBehaviour) (baseURL authorName : String)
    (limit : Nat) (v : JSValue)
    (hok : (http (requestURL baseURL authorName limit "json")).ok = true)
    (hparse : jsonParse (http (requestURL baseURL authorName limit "json")).body = some v)
    (hnotarr : v.isArray = false) :
    BookSearchApiClient.parseJSON (http (requestURL baseURL authorName limit "json")).body =
      Except.ok v ∧
    ∃ m, BookSearchApiClient.getBooksByAuthor http baseURL "json" authorName limit =
      Except.error (JSError.typeError m) := by
  have hpj : BookSearchApiClient.parseJSON
      (http (requestURL baseURL authorName limit "json")).body = Except.ok v := by
    simp [BookSearchApiClient.parseJSON, hparse]
  refine ⟨hpj, ?_⟩
  have hpipe : BookSearchApiClient.getBooksByAuthor http baseURL "json" authorName limit =
      normaliseData v := by
    simp only [BookSearchApiClient.getBooksByAuthor, hok, Bool.not_true,
      Bool.false_eq_true, if_false, BookSearchApiClient.parsers, List.lookup,
      BookSearchApiClient.normaliseData]
    simp [hpj]
  rw [hpipe]
  cases v with
  | arr xs => simp [JSValue.isArray] at hnotarr
  | undef => exact ⟨_, rfl⟩
  | null => exact ⟨_, rfl⟩
  | bool b => exact ⟨_, rfl⟩
  | str s => exact ⟨_, rfl⟩
  | num n => exact ⟨_, rfl⟩
  | obj fs => exact ⟨_, rfl⟩

/-- C10, witness: applied at a 200 response whose body is the JSON number
42. -/
theorem c10_witness :
    BookSearchApiClient.parseJSON "42" = Except.ok (JSValue.num (JSNum.rat 42)) ∧
    ∃ m, BookSearchApiClient.getBooksByAuthor (constHttp 200 "42") "b" "json" "a" 10 =
      Except.error (JSError.typeError m) :=
  c10_nonarray_json (constHttp 200 "42") "b" "a" 10 (JSValue.num (JSNum.rat 42))
    rfl rfl rfl

end BookSearch
